import Mathlib

/-!
Shallow embedding of `redisgo` (src/redis.go): a singleton wrapper around a
pooled Redis client.  The wrapper's state is modelled explicitly: the
process-wide singleton (`redisInstance` guarded by `sync.Once`) becomes a
`ProcState` threaded through `New`/`GetInstance`, and each cache operation is
parameterised by a `DoFn` modelling `(*Redis).Do` — the one call every
operation makes to issue a single command over a borrowed connection.
Choosing `σ := List Cmd` with `traceDo` records the exact commands an
operation issues; choosing `σ := Store` with `storeDo` runs the commands
against a model of the remote store's documented GET/SETEX contract.
-/

namespace Redisgo

/-- Configuration of the connection-pool factory built by the first call to
`New` (src/redis.go lines 36-60): fixed idle cap 3, idle timeout 240 s, and
the dial parameters (ip, port, password, db) captured by the `Dial` closure. -/
structure PoolConfig where
  maxIdle : Nat
  idleTimeoutSeconds : Nat
  ip : String
  port : Int
  password : String
  db : Int
deriving DecidableEq

/-- The `Redis` handle (src/redis.go lines 27-29): it owns only the pool. -/
structure Redis where
  pool : PoolConfig
deriving DecidableEq

/-- `pool := &redis.Pool{MaxIdle: 3, IdleTimeout: 240 * time.Second, Dial: ...}`
with the dial parameters taken from `New`'s arguments. -/
def mkPool (ip : String) (port : Int) (password : String) (db : Int) : PoolConfig :=
  { maxIdle := 3, idleTimeoutSeconds := 240
    ip := ip, port := port, password := password, db := db }

/-- The package-level mutable state of src/redis.go lines 31-32:
`var redisInstance *Redis` (an `Option` models the possibly-nil pointer) and
`var once sync.Once` (`onceDone` records whether `once.Do` already ran). -/
structure ProcState where
  onceDone : Bool
  redisInstance : Option Redis
deriving DecidableEq

/-- Process start: `once` has not run and `redisInstance` is nil. -/
def initState : ProcState := ⟨false, none⟩

/-- `New` (src/redis.go lines 34-67): `once.Do` builds the pool and stores the
handle only if it has not run yet; the function then returns the package-level
`redisInstance`.  (The signal watcher installed by `closePool` touches no state
read by any claim and is not modelled.) -/
def New (st : ProcState) (ip : String) (port : Int) (password : String)
    (db : Int) : ProcState × Option Redis :=
  if st.onceDone then
    (st, st.redisInstance)
  else
    let r : Redis := ⟨mkPool ip port password db⟩
    (⟨true, some r⟩, some r)

/-- Arguments of one `New` call. -/
abbrev NewArgs := String × Int × String × Int

/-- Runs a sequence of `New` calls from a state, collecting each returned
instance (used to speak about "every subsequent call"). -/
def runNews : ProcState → List NewArgs → ProcState × List (Option Redis)
  | st, [] => (st, [])
  | st, a :: rest =>
      let p := New st a.1 a.2.1 a.2.2.1 a.2.2.2
      let q := runNews p.1 rest
      (q.1, p.2 :: q.2)

/-- Outcome of `GetInstance`: either the Go `panic` (a fatal,
process-terminating condition, not a returned error) or the handle. -/
inductive GetInstanceResult where
  | panicked (msg : String)
  | ok (r : Redis)
deriving DecidableEq

/-- `GetInstance` (src/redis.go lines 69-74): panics when `redisInstance` is
nil, otherwise returns it. -/
def GetInstance (st : ProcState) : GetInstanceResult :=
  match st.redisInstance with
  | none => .panicked "请先调用New方法创建实例"
  | some r => .ok r

/-- An argument of a Redis command as written by the client library: the
wrapper passes strings and Go ints (written in decimal on the wire). -/
inductive Arg where
  | str (s : String)
  | int (n : Int)
deriving DecidableEq

/-- One command issued through `(*Redis).Do`: name plus arguments. -/
structure Cmd where
  name : String
  args : List Arg
deriving DecidableEq

/-- A reply from the remote store (redigo's reply types: nil, status string,
bulk string, integer, array). -/
inductive Reply where
  | nil
  | simple (s : String)
  | bulk (s : String)
  | int (n : Int)
  | array (rs : List Reply)

/-- Errors surfaced by `Do` or by redigo's reply-conversion helpers. -/
inductive Err where
  | nilReply
  | typeError (want : String)
  | remote (msg : String)
  | conn (msg : String)
deriving DecidableEq

/-- The `(*Redis).Do` effect (src/redis.go lines 89-93): borrow a connection,
issue one command, release.  Modelled as explicit state passing: a `DoFn`
takes the connection-world state and the command and yields the new state and
the command's outcome. -/
abbrev DoFn (σ : Type) := σ → Cmd → σ × Except Err Reply

/-- `(*Redis).Do` itself: every operation goes through this single call. -/
def Do (doFn : DoFn σ) (s : σ) (c : Cmd) : σ × Except Err Reply := doFn s c

/-- A `DoFn` that records every issued command in order and answers each from
an arbitrary outcome oracle (used to reason about which commands an operation
issues and how it handles their outcomes). -/
def traceDo (outcome : Cmd → Except Err Reply) : DoFn (List Cmd) :=
  fun tr c => (tr ++ [c], outcome c)

/-- Drops the reply of a `(reply, err)` pair, keeping only the error — the
`_, err = r.Do(...)` idiom. -/
def exceptErr : Except Err α → Option Err
  | .error e => some e
  | .ok _ => none

/-- Value of the accumulated decimal digits. -/
def digitsToNat (cs : List Char) : Nat :=
  cs.foldl (fun n c => n * 10 + (c.toNat - 48)) 0

/-- `strconv.ParseInt(s, 10, 0)` as used by redigo's `Int` helper: optional
sign followed by at least one decimal digit. -/
def parseIntStr (s : String) : Option Int :=
  match s.toList with
  | [] => none
  | '-' :: rest =>
      if rest.isEmpty then none
      else if rest.all Char.isDigit then some (-(digitsToNat rest : Int)) else none
  | '+' :: rest =>
      if rest.isEmpty then none
      else if rest.all Char.isDigit then some (digitsToNat rest : Int) else none
  | cs =>
      if cs.all Char.isDigit then some (digitsToNat cs : Int) else none

/-- redigo's `redis.String` reply conversion: bulk or status strings convert,
nil becomes `ErrNil`, errors pass through, anything else is a type error. -/
def redisString : Except Err Reply → Except Err String
  | .error e => .error e
  | .ok (.bulk s) => .ok s
  | .ok (.simple s) => .ok s
  | .ok .nil => .error .nilReply
  | .ok _ => .error (.typeError "String")

/-- redigo's `redis.Int` reply conversion: integers convert, bulk strings are
parsed as decimal integers, nil becomes `ErrNil`. -/
def redisInt : Except Err Reply → Except Err Int
  | .error e => .error e
  | .ok (.int n) => .ok n
  | .ok (.bulk s) =>
      match parseIntStr s with
      | some n => .ok n
      | none => .error (.typeError "Int")
  | .ok .nil => .error .nilReply
  | .ok _ => .error (.typeError "Int")

/-- `strconv.ParseBool` as used by redigo's `Bool` helper on bulk replies. -/
def parseBoolStr : String → Except Err Bool
  | "1" | "t" | "T" | "TRUE" | "true" | "True" => .ok true
  | "0" | "f" | "F" | "FALSE" | "false" | "False" => .ok false
  | _ => .error (.typeError "Bool")

/-- redigo's `redis.Bool` reply conversion: an integer reply is compared with
zero, a bulk reply is parsed as a boolean, nil becomes `ErrNil`. -/
def redisBool : Except Err Reply → Except Err Bool
  | .error e => .error e
  | .ok (.int n) => .ok (n != 0)
  | .ok (.bulk s) => parseBoolStr s
  | .ok .nil => .error .nilReply
  | .ok _ => .error (.typeError "Bool")

/-- redigo's `redis.Values` reply conversion: an array reply yields its
elements, nil becomes `ErrNil`. -/
def redisValues : Except Err Reply → Except Err (List Reply)
  | .error e => .error e
  | .ok (.array rs) => .ok rs
  | .ok .nil => .error .nilReply
  | .ok _ => .error (.typeError "Values")

/-- `GetString` (src/redis.go lines 107-109): `redis.String(r.Do("GET", key))`. -/
def GetString (doFn : DoFn σ) (s : σ) (key : String) : σ × Except Err String :=
  let p := Do doFn s ⟨"GET", [.str key]⟩
  (p.1, redisString p.2)

/-- `GetInt` (src/redis.go lines 111-113): `redis.Int(r.Do("GET", key))`. -/
def GetInt (doFn : DoFn σ) (s : σ) (key : String) : σ × Except Err Int :=
  let p := Do doFn s ⟨"GET", [.str key]⟩
  (p.1, redisInt p.2)

/-- `Get` (src/redis.go lines 115-122): fetch the stored text with
`GetString`; on fetch error return it at once.  Otherwise run
`json.Unmarshal` — modelled by the `decode` parameter writing a new value for
the output location — and IGNORE its error (the call's result is discarded),
returning nil.  The result is (state, returned error, output location). -/
def Get (doFn : DoFn σ) (decode : String → Except String V) (s : σ)
    (key : String) (val : V) : σ × Option Err × V :=
  let p := GetString doFn s key
  match p.2 with
  | .error e => (p.1, some e, val)
  | .ok reply =>
      match decode reply with
      | .ok v => (p.1, none, v)
      | .error _ => (p.1, none, val)

/-- A Go `interface{}` value as classified by `Set`'s type switch: a plain
string, a plain int, or any other shape `j` (to be JSON-marshalled). -/
inductive GoVal (J : Type) where
  | str (s : String)
  | int (n : Int)
  | other (j : J)

/-- `Set` (src/redis.go lines 125-139).  Strings and ints are sent verbatim
as the SETEX payload.  Any other shape is JSON-marshalled (`marshal`); on
marshal failure the nil byte slice yields the empty string, which is still
sent.  In the default branch `b, err := json.Marshal(v)` declares a NEW `err`
shadowing the named return value, and `_, err = r.Do(...)` assigns that inner
variable, so the function's returned error stays nil on that path. -/
def Set (doFn : DoFn σ) (marshal : J → Except String String) (s : σ)
    (key : String) (val : GoVal J) (expire : Int) : σ × Option Err :=
  match val with
  | .str v =>
      let p := Do doFn s ⟨"SETEX", [.str key, .int expire, .str v]⟩
      (p.1, exceptErr p.2)
  | .int v =>
      let p := Do doFn s ⟨"SETEX", [.str key, .int expire, .int v]⟩
      (p.1, exceptErr p.2)
  | .other j =>
      let b : String := match marshal j with | .ok b => b | .error _ => ""
      let p := Do doFn s ⟨"SETEX", [.str key, .int expire, .str b]⟩
      (p.1, none)

/-- `Expire` (src/redis.go lines 157-161): one EXPIRE command; the boolean
produced by `redis.Bool` is discarded (`_, err := ...`) and only the error is
returned. -/
def Expire (doFn : DoFn σ) (s : σ) (key : String) (expire : Int) :
    σ × Option Err :=
  let p := Do doFn s ⟨"EXPIRE", [.str key, .int expire]⟩
  (p.1, exceptErr (redisBool p.2))

/-- `redis.Args{}.Add(key).AddFlat(val)` minus the leading key: the
structured value's fields flattened into an interleaved field/value list. -/
def flattenFields : List (String × Arg) → List Arg
  | [] => []
  | (f, v) :: rest => .str f :: v :: flattenFields rest

/-- `Hmset` (src/redis.go lines 180-189): one HMSET command with the
flattened field/value list; on its error return that error at once; otherwise
issue EXPIRE if and only if `expire > 0`, returning that command's error. -/
def Hmset (doFn : DoFn σ) (s : σ) (key : String)
    (fields : List (String × Arg)) (expire : Int) : σ × Option Err :=
  let p := Do doFn s ⟨"HMSET", .str key :: flattenFields fields⟩
  match p.2 with
  | .error e => (p.1, some e)
  | .ok _ =>
      if expire > 0 then
        let q := Do doFn p.1 ⟨"EXPIRE", [.str key, .int expire]⟩
        (q.1, exceptErr q.2)
      else
        (p.1, none)

/-- `Hmget` (src/redis.go lines 192-203): fetch all fields with HGETALL and
`redis.Values`; on fetch error return it.  Otherwise run `redis.ScanStruct`
— modelled by `scan` producing the output structure — whose error is only
printed (`fmt.Println`), the function returning the outer, nil error. -/
def Hmget (doFn : DoFn σ) (scan : List Reply → Except String V) (s : σ)
    (key : String) (val : V) : σ × Option Err × V :=
  let p := Do doFn s ⟨"HGETALL", [.str key]⟩
  match redisValues p.2 with
  | .error e => (p.1, some e, val)
  | .ok vs =>
      match scan vs with
      | .ok v => (p.1, none, v)
      | .error _ => (p.1, none, val)

/-- `Zrange` (src/redis.go lines 222-224): raw pass-through of
`ZRANGE key from to WITHSCORES`. -/
def Zrange (doFn : DoFn σ) (s : σ) (key : String) (lo hi : Int) :
    σ × Except Err Reply :=
  Do doFn s ⟨"ZRANGE", [.str key, .int lo, .int hi, .str "WITHSCORES"]⟩

/-- `Zrevrange` (src/redis.go lines 228-230): raw pass-through of
`ZREVRANGE key from to WITHSCORES`. -/
def Zrevrange (doFn : DoFn σ) (s : σ) (key : String) (lo hi : Int) :
    σ × Except Err Reply :=
  Do doFn s ⟨"ZREVRANGE", [.str key, .int lo, .int hi, .str "WITHSCORES"]⟩

/-- `ZrangeByScore` (src/redis.go lines 234-236): raw pass-through of
`ZRANGEBYSCORE key from to WITHSCORES LIMIT offset count`. -/
def ZrangeByScore (doFn : DoFn σ) (s : σ) (key : String)
    (lo hi offset count : Int) : σ × Except Err Reply :=
  Do doFn s ⟨"ZRANGEBYSCORE",
    [.str key, .int lo, .int hi, .str "WITHSCORES", .str "LIMIT",
     .int offset, .int count]⟩

/-- `ZrevrangeByScore` (src/redis.go lines 240-242): raw pass-through of
`ZREVRANGEBYSCORE key from to WITHSCORES LIMIT offset count`. -/
def ZrevrangeByScore (doFn : DoFn σ) (s : σ) (key : String)
    (lo hi offset count : Int) : σ × Except Err Reply :=
  Do doFn s ⟨"ZREVRANGEBYSCORE",
    [.str key, .int lo, .int hi, .str "WITHSCORES", .str "LIMIT",
     .int offset, .int count]⟩

/-- The remote store's keyspace for the string commands: each entry is
(key, stored text, ttl in seconds); a fresh write shadows older entries. -/
abbrev Store := List (String × String × Int)

/-- How the client library writes an argument on the wire: strings verbatim,
Go ints in decimal. -/
def argText : Arg → String
  | .str s => s
  | .int n => toString n

/-- First (most recent) entry for a key. -/
def storeLookup : Store → String → Option String
  | [], _ => none
  | e :: rest, k => if e.1 = k then some e.2.1 else storeLookup rest k

/-- Modelled from the spec: the remote store's SETEX/GET wire contract
(spec §4.3, §6) — an external collaborator whose code is not part of this
repository.  SETEX stores the argument's text under the key with the given
ttl and answers OK; GET answers the stored text as a bulk reply, or nil when
the key is absent. -/
def storeDo : DoFn Store := fun st c =>
  match c.name, c.args with
  | "SETEX", [.str k, .int ttl, a] => ((k, argText a, ttl) :: st, .ok (.simple "OK"))
  | "GET", [.str k] =>
      (st,
        match storeLookup st k with
        | some v => .ok (.bulk v)
        | none => .ok .nil)
  | _, _ => (st, .error (.remote "ERR unknown command"))

end Redisgo

namespace Redisgo

/-- Once the guard has fired, every further `New` call is the identity on the
state and returns the stored instance. -/
theorem runNews_of_onceDone (st : ProcState) (h : st.onceDone = true)
    (rest : List NewArgs) :
    runNews st rest = (st, List.replicate rest.length st.redisInstance) := by
  induction rest with
  | nil => simp [runNews]
  | cons a rest ih => simp [runNews, New, h, ih, List.replicate]

/-- C1: only the first call to `New` builds the connection-pool factory
(yielding the handle made from its own arguments); every subsequent call,
whatever its arguments, leaves the state unchanged and returns that same
instance, so all callers observe one handle. -/
theorem new_builds_once (ip : String) (port : Int) (pw : String) (db : Int)
    (rest : List NewArgs) :
    New initState ip port pw db
      = (⟨true, some ⟨mkPool ip port pw db⟩⟩, some ⟨mkPool ip port pw db⟩)
    ∧ runNews (New initState ip port pw db).1 rest
      = ((New initState ip port pw db).1,
          List.replicate rest.length (some ⟨mkPool ip port pw db⟩)) := by
  refine ⟨rfl, ?_⟩
  have h := runNews_of_onceDone ⟨true, some ⟨mkPool ip port pw db⟩⟩ rfl rest
  simpa [New, initState] using h

/-- C2: `GetInstance` before any `New` call panics (a fatal,
process-terminating condition, not a returned error); after `New` it returns,
on every call, exactly the instance `New` returned. -/
theorem getInstance_panics_then_same (ip : String) (port : Int) (pw : String)
    (db : Int) (rest : List NewArgs) :
    GetInstance initState = .panicked "请先调用New方法创建实例"
    ∧ (New initState ip port pw db).2 = some ⟨mkPool ip port pw db⟩
    ∧ GetInstance (New initState ip port pw db).1 = .ok ⟨mkPool ip port pw db⟩
    ∧ GetInstance (runNews (New initState ip port pw db).1 rest).1
        = .ok ⟨mkPool ip port pw db⟩ := by
  refine ⟨rfl, rfl, rfl, ?_⟩
  have h := runNews_of_onceDone ⟨true, some ⟨mkPool ip port pw db⟩⟩ rfl rest
  simp [New, initState, h, GetInstance]

/-- C3: when the fetch of the stored text succeeds but the subsequent decode
fails — `Get`'s JSON decode, `Hmget`'s struct scan — the operation still
returns nil (success): the decode failure is never surfaced to the caller. -/
theorem decode_failure_swallowed
    (outcome1 outcome2 : Cmd → Except Err Reply)
    (decode : String → Except String V) (scan : List Reply → Except String W)
    (key1 key2 text : String) (vs : List Reply) (val1 : V) (val2 : W)
    (e1 e2 : String)
    (hfetch1 : redisString (outcome1 ⟨"GET", [.str key1]⟩) = .ok text)
    (hdec : decode text = .error e1)
    (hfetch2 : redisValues (outcome2 ⟨"HGETALL", [.str key2]⟩) = .ok vs)
    (hscan : scan vs = .error e2) :
    (Get (traceDo outcome1) decode [] key1 val1).2.1 = none
    ∧ (Hmget (traceDo outcome2) scan [] key2 val2).2.1 = none := by
  constructor
  · simp [Get, GetString, Do, traceDo, hfetch1, hdec]
  · simp [Hmget, Do, traceDo, hfetch2, hscan]

/-- Witness for C3 at a concrete fetch success and decode failure. -/
theorem decode_failure_swallowed_witness :
    (Get (traceDo (fun _ => .ok (.bulk "x")))
        (fun _ => (.error "bad" : Except String Nat)) [] "k" 0).2.1 = none
    ∧ (Hmget (traceDo (fun _ => .ok (.array [])))
        (fun _ => (.error "bad" : Except String Nat)) [] "k" 0).2.1 = none :=
  decode_failure_swallowed
    (fun _ => .ok (.bulk "x")) (fun _ => .ok (.array []))
    (fun _ => (.error "bad" : Except String Nat))
    (fun _ => (.error "bad" : Except String Nat))
    "k" "k" "x" [] 0 0 "bad" "bad" rfl rfl rfl rfl

/-- C4: `Set` classifies the value by shape — a plain string or plain int is
sent verbatim, anything else is JSON-encoded to text first — and in every
case issues exactly one SETEX command carrying the ttl; no path stores a
value without an expiry. -/
theorem set_single_setex (outcome : Cmd → Except Err Reply)
    (marshal : J → Except String String) (key : String) (val : GoVal J)
    (expire : Int) :
    (Set (traceDo outcome) marshal [] key val expire).1
      = [⟨"SETEX", [.str key, .int expire,
          match val with
          | .str v => .str v
          | .int n => .int n
          | .other j =>
              .str (match marshal j with | .ok b => b | .error _ => "")]⟩] := by
  cases val <;> simp [Set, Do, traceDo]

/-- C5: `Hmset` issues one HMSET command with the flattened field/value list;
an EXPIRE command follows exactly when the HMSET succeeded and the ttl is
positive, and on HMSET failure that error is returned with no EXPIRE issued. -/
theorem hmset_expire_iff (outcome : Cmd → Except Err Reply) (key : String)
    (fields : List (String × Arg)) (expire : Int) :
    Hmset (traceDo outcome) [] key fields expire
      = (match outcome ⟨"HMSET", .str key :: flattenFields fields⟩ with
         | .error e => ([⟨"HMSET", .str key :: flattenFields fields⟩], some e)
         | .ok _ =>
             if expire > 0 then
               ([⟨"HMSET", .str key :: flattenFields fields⟩,
                 ⟨"EXPIRE", [.str key, .int expire]⟩],
                exceptErr (outcome ⟨"EXPIRE", [.str key, .int expire]⟩))
             else
               ([⟨"HMSET", .str key :: flattenFields fields⟩], none)) := by
  cases h : outcome ⟨"HMSET", .str key :: flattenFields fields⟩ <;>
    simp [Hmset, Do, traceDo, h]

/-- C6 counterexample: the remote EXPIRE replies 1 (applied) in one run and 0
(not applied) in the other, and `redisBool` distinguishes the two replies,
yet `Expire` returns the identical result in both runs — so `Expire` does not
return the applied? boolean to the caller. -/
theorem expire_discards_applied_cex :
    Expire (traceDo (fun _ => .ok (.int 1))) [] "k" 60
      = Expire (traceDo (fun _ => .ok (.int 0))) [] "k" 60
    ∧ redisBool (.ok (.int 1)) ≠ redisBool (.ok (.int 0)) := by
  refine ⟨rfl, ?_⟩
  simp [redisBool]

/-- C6 amended: `Expire` is a direct one-command pass-through that converts
the reply to the applied? boolean but discards it, returning only the error
(if any) to the caller. -/
theorem expire_returns_error_only (outcome : Cmd → Except Err Reply)
    (key : String) (n : Int) :
    Expire (traceDo outcome) [] key n
      = ([⟨"EXPIRE", [.str key, .int n]⟩],
         exceptErr (redisBool (outcome ⟨"EXPIRE", [.str key, .int n]⟩))) := rfl

/-- C7: against the modelled remote store, `Set key "abc" 60` followed by the
string fetch returns "abc", and `Set key 42 60` followed by `GetInt` returns
42, from any prior store contents. -/
theorem set_get_roundtrip (st : Store) (key : String) :
    (GetString storeDo
        (Set storeDo (fun (_ : Unit) => .ok "") st key (.str "abc") 60).1 key).2
      = .ok "abc"
    ∧ (GetInt storeDo
        (Set storeDo (fun (_ : Unit) => .ok "") st key (.int 42) 60).1 key).2
      = .ok 42 := by
  constructor
  · simp [Set, GetString, Do, storeDo, storeLookup, redisString, argText]
  · have h : parseIntStr (toString (42 : Int)) = some 42 := by rfl
    simp [Set, GetInt, Do, storeDo, storeLookup, redisInt, argText, h]

/-- C8: each sorted-set range operation issues its single command with the
WITHSCORES option and returns the remote reply raw and unmodified. -/
theorem zrange_ops_withscores_raw (outcome : Cmd → Except Err Reply)
    (key : String) (lo hi offset count : Int) :
    Zrange (traceDo outcome) [] key lo hi
      = ([⟨"ZRANGE", [.str key, .int lo, .int hi, .str "WITHSCORES"]⟩],
         outcome ⟨"ZRANGE", [.str key, .int lo, .int hi, .str "WITHSCORES"]⟩)
    ∧ Zrevrange (traceDo outcome) [] key lo hi
      = ([⟨"ZREVRANGE", [.str key, .int lo, .int hi, .str "WITHSCORES"]⟩],
         outcome ⟨"ZREVRANGE", [.str key, .int lo, .int hi, .str "WITHSCORES"]⟩)
    ∧ ZrangeByScore (traceDo outcome) [] key lo hi offset count
      = ([⟨"ZRANGEBYSCORE", [.str key, .int lo, .int hi, .str "WITHSCORES",
            .str "LIMIT", .int offset, .int count]⟩],
         outcome ⟨"ZRANGEBYSCORE", [.str key, .int lo, .int hi,
            .str "WITHSCORES", .str "LIMIT", .int offset, .int count]⟩)
    ∧ ZrevrangeByScore (traceDo outcome) [] key lo hi offset count
      = ([⟨"ZREVRANGEBYSCORE", [.str key, .int lo, .int hi, .str "WITHSCORES",
            .str "LIMIT", .int offset, .int count]⟩],
         outcome ⟨"ZREVRANGEBYSCORE", [.str key, .int lo, .int hi,
            .str "WITHSCORES", .str "LIMIT", .int offset, .int count]⟩) :=
  ⟨rfl, rfl, rfl, rfl⟩

/-- C9 counterexample: with a failing JSON marshal AND a failing SETEX
command (constant outcome `.error (.remote "boom")`), `Set` still returns
nil — so the returned error does not reflect the command's outcome. -/
theorem set_swallow_do_error_cex :
    Set (traceDo (fun _ => .error (.remote "boom")))
        (fun (_ : Unit) => .error "marshal failed") [] "k" (.other ()) 60
      = ([⟨"SETEX", [.str "k", .int 60, .str ""]⟩], none)
    ∧ (fun (_ : Cmd) => (.error (.remote "boom") : Except Err Reply))
        ⟨"SETEX", [.str "k", .int 60, .str ""]⟩ = .error (.remote "boom") :=
  ⟨rfl, rfl⟩

/-- C9 amended: on any value that is neither a plain string nor a plain int,
`Set` issues the SETEX command with the marshalled text (the empty text when
marshalling failed) and — the error variable being shadowed in this branch —
returns nil regardless of both the marshal outcome and the command outcome. -/
theorem set_json_branch_returns_nil (outcome : Cmd → Except Err Reply)
    (marshal : J → Except String String) (key : String) (j : J)
    (expire : Int) :
    Set (traceDo outcome) marshal [] key (.other j) expire
      = ([⟨"SETEX", [.str key, .int expire,
           .str (match marshal j with | .ok b => b | .error _ => "")]⟩],
         none) := rfl

/-- C10: when `Get`'s fetch of the stored text fails (including the
not-found/nil case), `Get` returns that error and the caller's output
location is returned unmodified, whatever the decode function would do. -/
theorem get_fetch_failure_frame (outcome : Cmd → Except Err Reply)
    (decode : String → Except String V) (key : String) (val : V) (e : Err)
    (hfail : redisString (outcome ⟨"GET", [.str key]⟩) = .error e) :
    Get (traceDo outcome) decode [] key val
      = ([⟨"GET", [.str key]⟩], some e, val) := by
  simp [Get, GetString, Do, traceDo, hfail]

/-- Witness for C10 at the not-found case: the reply is nil, the fetch fails
with `ErrNil`, and the output location keeps its prior value 0 even though
the decode function would have produced 7. -/
theorem get_fetch_failure_frame_witness :
    Get (traceDo (fun _ => .ok .nil)) (fun _ => (.ok 7 : Except String Nat))
        [] "k" 0
      = ([⟨"GET", [.str "k"]⟩], some .nilReply, 0) :=
  get_fetch_failure_frame (fun _ => .ok .nil)
    (fun _ => (.ok 7 : Except String Nat)) "k" 0 .nilReply rfl

end Redisgo
